import Mathlib

/- Batteries marks the `ℚ` field operations `@[irreducible]`; restore
definitional unfolding locally so that concrete runs of the simulation can
be evaluated by `decide`. -/
attribute [local semireducible] Rat.mul Rat.add Rat.sub Rat.inv

/-!
# Verification of the COVID-19 disease model (`diseaseModel.js`)

A shallow embedding of the epidemic-simulation core:
`createPopulation`, `updatePopulation` and `computeStatistics`.

Modelling conventions:
* JS numbers are modelled as `ℚ` (positions, parameters, random draws) and
  counters as `ℕ` (they are only ever set to `0` and incremented by `1`).
* `Math.random()` is modelled as a stream `rng : ℕ → ℚ`; each call consumes
  the next element of the stream.  The consumption order follows the source:
  first the all-pairs exposure scan (one draw per in-range infected×healthy
  pair), then the advance pass (one draw per `recovered` individual).
* The JS distance test `Math.sqrt(dx*dx+dy*dy) <= 6` is modelled as
  `dx^2 + dy^2 ≤ 36`, equivalent for non-negative reals since `sqrt` is
  monotone.
* The JS dedup test `newExposures.includes(other)` is reference identity on
  array elements; the embedding identifies individuals by their index in the
  population list.
-/

/-- The four disease states a person can be in
(`"healthy" | "exposed" | "infected" | "recovered"` in the source). -/
inductive HState
  | healthy
  | exposed
  | infected
  | recovered
deriving DecidableEq, Repr, Inhabited

/-- One individual of the population, with the fields created by
`createPopulation` in the source. -/
structure Person where
  id : Nat
  x : ℚ
  y : ℚ
  state : HState
  daysExposed : Nat
  daysInfected : Nat
  quarantined : Bool
  newlyExposed : Bool
  newlyInfected : Bool
deriving DecidableEq, Repr, Inhabited

/-- The tunable parameter record (`defaultSimulationParameters` lists its
fields). -/
structure Params where
  infectionRate : ℚ
  incubationTime : ℚ
  recoveryTime : ℚ
  reinfectionProbability : ℚ
  quarantineThreshold : ℚ
  quarantineReductionFactor : ℚ
deriving DecidableEq, Repr

/-- The integer square root (largest `k` with `k * k ≤ n`), written as a
kernel-computable search. -/
def intSqrt (n : Nat) : Nat :=
  ((List.range (n + 1)).filter (fun k => k * k ≤ n)).length - 1

/-- `sideSize = Math.sqrt(size)` in `createPopulation`.  Exact for perfect
squares, which are the only sizes whose positions any proved statement
depends on; for non-squares the JS value is an irrational floating-point
root not representable in `ℚ`. -/
def sqrtQ (n : Nat) : ℚ := (intSqrt n : ℚ)

/-- JS `a % b` for the non-negative operands used in `createPopulation`
(`trunc` coincides with `floor` there). -/
def jsMod (a b : ℚ) : ℚ := a - b * ((a / b).floor : ℚ)

/-- The person pushed for index `i` in the `createPopulation` loop. -/
def mkPerson (size i : Nat) : Person :=
  { id := i
    x := 100 * jsMod (i : ℚ) (sqrtQ size) / sqrtQ size
    y := 100 * (((i : ℚ) / sqrtQ size).floor : ℚ) / sqrtQ size
    state := .healthy
    daysExposed := 0
    daysInfected := 0
    quarantined := false
    newlyExposed := false
    newlyInfected := false }

/-- `patientZero.state = "infected"; patientZero.daysInfected = 0` applied to
the element at the given index.  This models only the in-range assignment:
when the index is out of range the source throws a `TypeError`
(`population[...]` is `undefined`), a path that `createPopulationE` guards
before calling this function, so the nil equation is dead code required by
totality. -/
def setInfected : List Person → Nat → List Person
  | [], _ => []
  | p :: rest, 0 => { p with state := .infected, daysInfected := 0 } :: rest
  | p :: rest, n + 1 => p :: setInfected rest n

/-- `createPopulation(size)` from the source: build the grid of healthy
individuals, then infect patient zero at index
`Math.floor(Math.random() * size)`.  This is the value of the source on its
non-throwing path; at `size = 0` (patient-zero lookup `undefined`) the
source throws a `TypeError`, which the exception-aware view
`createPopulationE` models. -/
def createPopulation (size : Nat) (rng : Nat → ℚ) : List Person :=
  setInfected ((List.range size).map (mkPerson size)) (rng 0 * (size : ℚ)).floor.toNat

/-- `population.filter(p => p.state === "infected").length`. -/
def infectedCount (pop : List Person) : Nat :=
  (pop.filter (fun p => decide (p.state = .infected))).length

/-- `fractionInfected = infectedCount / population.length`. -/
def fractionInfected (pop : List Person) : ℚ :=
  (infectedCount pop : ℚ) / (pop.length : ℚ)

/-- `quarantineActive` from the source: `fractionInfected >= quarantineThreshold`.
On an empty population the JS expression is `NaN >= t`, which is `false`;
`ℚ` has no NaN, so that case is made explicit. -/
def quarantineActive (pop : List Person) (params : Params) : Bool :=
  if pop.length = 0 then false
  else decide (params.quarantineThreshold ≤ fractionInfected pop)

/-- `effectiveInfectionRate` from the source: reduced by
`quarantineReductionFactor` exactly when quarantine is active. -/
def effectiveInfectionRate (pop : List Person) (params : Params) : ℚ :=
  if quarantineActive pop params then
    params.infectionRate * params.quarantineReductionFactor
  else params.infectionRate

/-- The distance test of the exposure scan:
`Math.sqrt(dx*dx + dy*dy) <= 6`, with both sides squared (`sqrt` is
monotone and both sides are non-negative, so the tests are equivalent). -/
def withinRange (p other : Person) : Prop :=
  (p.x - other.x) * (p.x - other.x) + (p.y - other.y) * (p.y - other.y) ≤ 36

instance : DecidableRel withinRange := fun p other =>
  inferInstanceAs
    (Decidable
      ((p.x - other.x) * (p.x - other.x) + (p.y - other.y) * (p.y - other.y) ≤ 36))

/-- The inner loop of the exposure scan for one infected person `p`:
walk the population (`oi` is the index of `other`, `acc` carries the next
random index and the pending exposure indices).  For each healthy `other`
within range one random draw is consumed; on success the index is appended
unless already pending (`!newExposures.includes(other)`). -/
def scanTrials (rate : ℚ) (rng : Nat → ℚ) (p : Person) :
    Nat → Nat × List Nat → List Person → Nat × List Nat
  | _, acc, [] => acc
  | oi, (k, pending), other :: rest =>
    if other.state = .healthy ∧ withinRange p other then
      scanTrials rate rng p (oi + 1)
        (k + 1,
          if rng k < rate then
            (if pending.contains oi then pending else pending ++ [oi])
          else pending)
        rest
    else scanTrials rate rng p (oi + 1) (k, pending) rest

/-- The full exposure scan: for every infected person run `scanTrials` over
the whole population.  Returns the next unused random index and the pending
exposure indices.  (In the source this loop also writes the `quarantined`
flag of each infected person; that write is to a field the scan never reads,
so the embedding factors it out into `markQuarantine`.) -/
def collectExposures (pop : List Person) (rate : ℚ) (rng : Nat → ℚ) :
    Nat × List Nat :=
  pop.foldl
    (fun acc p => if p.state = .infected then scanTrials rate rng p 0 acc pop else acc)
    (0, [])

/-- `p.quarantined = quarantineActive` applied to one person (only infected
persons are touched by the scan loop). -/
def markPerson (qa : Bool) (p : Person) : Person :=
  if p.state = .infected then { p with quarantined := qa } else p

/-- The `quarantined`-flag writes of the exposure scan, over the whole
population. -/
def markQuarantine (pop : List Person) (qa : Bool) : List Person :=
  pop.map (markPerson qa)

/-- The `healthy → exposed` transition applied to one pending person
(`person.state = "exposed"; person.daysExposed = 0; person.newlyExposed = true`). -/
def exposePerson (p : Person) : Person :=
  { p with state := .exposed, daysExposed := 0, newlyExposed := true }

/-- `newExposures.forEach(...)`: commit the pending exposures.  `i` is the
index of the head of the remaining list in the full population. -/
def commitExposures (pending : List Nat) : Nat → List Person → List Person
  | _, [] => []
  | i, p :: rest =>
    (if pending.contains i then exposePerson p else p)
      :: commitExposures pending (i + 1) rest

/-- The `exposed` branch of the advance loop: clear `newlyExposed`,
increment `daysExposed`, and become infected once
`daysExposed >= incubationTime`. -/
def advExposed (params : Params) (p : Person) : Person :=
  let p1 := if p.newlyExposed then { p with newlyExposed := false } else p
  let p2 := { p1 with daysExposed := p1.daysExposed + 1 }
  if params.incubationTime ≤ (p2.daysExposed : ℚ) then
    { p2 with state := .infected, daysExposed := 0, daysInfected := 0,
              newlyInfected := true }
  else p2

/-- The `infected` branch of the advance loop: clear `newlyInfected`,
increment `daysInfected`, and recover once `daysInfected >= recoveryTime`. -/
def advInfected (params : Params) (p : Person) : Person :=
  let p1 := if p.newlyInfected then { p with newlyInfected := false } else p
  let p2 := { p1 with daysInfected := p1.daysInfected + 1 }
  if params.recoveryTime ≤ (p2.daysInfected : ℚ) then
    { p2 with state := .recovered, daysInfected := 0, quarantined := false }
  else p2

/-- One iteration of the advance loop (`k` is the random index used if the
person is `recovered`, the only branch that draws). -/
def advStep (params : Params) (rng : Nat → ℚ) (k : Nat) (p : Person) : Person :=
  match p.state with
  | .exposed => advExposed params p
  | .infected => advInfected params p
  | .recovered =>
    if rng k < params.reinfectionProbability then { p with state := .healthy } else p
  | .healthy => p

/-- Number of random draws one iteration of the advance loop consumes. -/
def randUse (p : Person) : Nat :=
  if p.state = .recovered then 1 else 0

/-- Number of random draws the advance loop consumes over a list. -/
def rngUses (l : List Person) : Nat :=
  (l.map randUse).sum

/-- The advance loop (`for (let p of population) { ... }` after the commit),
threading the random index. -/
def advanceList (params : Params) (rng : Nat → ℚ) : Nat → List Person → List Person
  | _, [] => []
  | k, p :: rest => advStep params rng k p :: advanceList params rng (k + randUse p) rest

/-- `updatePopulation(population, params)` from the source: quarantine
determination, exposure scan (with the `quarantined` writes), exposure
commit, then the advance pass, consuming the random stream in source order. -/
def updatePopulation (pop : List Person) (params : Params) (rng : Nat → ℚ) :
    List Person :=
  let qa := quarantineActive pop params
  let rate := effectiveInfectionRate pop params
  let kp := collectExposures pop rate rng
  advanceList params rng kp.1 (commitExposures kp.2 0 (markQuarantine pop qa))

/-- The per-round statistics record returned by `computeStatistics`. -/
structure Stats where
  round : Nat
  healthy : Nat
  exposed : Nat
  infected : Nat
  recovered : Nat
deriving DecidableEq, Repr

/-- `computeStatistics(population, round)` from the source: four
`filter(...).length` counts packaged with the round index. -/
def computeStatistics (pop : List Person) (round : Nat) : Stats :=
  { round := round
    healthy := (pop.filter (fun p => decide (p.state = .healthy))).length
    exposed := (pop.filter (fun p => decide (p.state = .exposed))).length
    infected := (pop.filter (fun p => decide (p.state = .infected))).length
    recovered := (pop.filter (fun p => decide (p.state = .recovered))).length }

/-- The error kinds named by the specification (`invalidSize`,
`invalidParameter`), plus the one failure the source can actually produce:
the JS `TypeError` thrown when the patient-zero lookup
`population[Math.floor(Math.random() * size)]` is `undefined`. -/
inductive SimError
  | invalidSize
  | invalidParameter
  | typeError
deriving DecidableEq, Repr

/-- Exception-aware view of `createPopulation`.  The source performs no
validation, but the assignment `patientZero.state = "infected"` throws a
`TypeError` when `population[Math.floor(Math.random() * size)]` is
`undefined`, i.e. when the index is outside the array — under
`Math.random()`'s contract (a value in `[0,1)`) that happens exactly at
`size = 0`.  Every in-range path returns normally. -/
def createPopulationE (size : Nat) (rng : Nat → ℚ) : Except SimError (List Person) :=
  let base := (List.range size).map (mkPerson size)
  let idx := (rng 0 * (size : ℚ)).floor
  if 0 ≤ idx ∧ idx.toNat < base.length then Except.ok (setInfected base idx.toNat)
  else Except.error SimError.typeError

/-- Exception-aware view of `updatePopulation`: the source body contains no
`throw` and no validation, so it always returns normally. -/
def updatePopulationE (pop : List Person) (params : Params) (rng : Nat → ℚ) :
    Except SimError (List Person) :=
  Except.ok (updatePopulation pop params rng)

/-! ## Observation functions -/

/-- The fields the engine never mutates. -/
def frameOf (p : Person) : Nat × ℚ × ℚ := (p.id, p.x, p.y)

/-- The fields the engine ever *reads*: `state`, position, and the two
counters.  `id`, `quarantined`, `newlyExposed` and `newlyInfected` are only
written, never read, by `updatePopulation`. -/
def obsOf (p : Person) : HState × ℚ × ℚ × Nat × Nat :=
  (p.state, p.x, p.y, p.daysExposed, p.daysInfected)

/-- The counter/state relationship of the data model, checked at observable
points: `daysExposed` is zero exactly when not `exposed`, and `daysInfected`
is zero whenever not `infected`. -/
def CounterInv (pop : List Person) : Prop :=
  ∀ p ∈ pop,
    (p.daysExposed = 0 ↔ p.state ≠ HState.exposed)
      ∧ (p.state ≠ HState.infected → p.daysInfected = 0)

/-! ## Concrete inputs used by witnesses and counterexamples -/

/-- The all-zero random stream: every `Math.random()` call returns `0`. -/
def rngZero : Nat → ℚ := fun _ => 0

/-- An infected individual at the origin. -/
def patientA : Person :=
  { id := 0, x := 0, y := 0, state := .infected, daysExposed := 0,
    daysInfected := 0, quarantined := false, newlyExposed := false,
    newlyInfected := false }

/-- A healthy individual one unit away from `patientA` (within the contact
radius 6). -/
def patientB : Person :=
  { id := 1, x := 1, y := 0, state := .healthy, daysExposed := 0,
    daysInfected := 0, quarantined := false, newlyExposed := false,
    newlyInfected := false }

/-- An exposed individual with `daysExposed = 0`. -/
def patientC : Person :=
  { id := 0, x := 0, y := 0, state := .exposed, daysExposed := 0,
    daysInfected := 0, quarantined := false, newlyExposed := false,
    newlyInfected := false }

/-- Certain transmission, long incubation, quarantine never triggered. -/
def paramsSpread : Params :=
  { infectionRate := 1, incubationTime := 5, recoveryTime := 14,
    reinfectionProbability := 0, quarantineThreshold := 1,
    quarantineReductionFactor := 3 / 10 }

/-- One-round incubation, quarantine never triggered. -/
def paramsIncub1 : Params :=
  { infectionRate := 1, incubationTime := 1, recoveryTime := 14,
    reinfectionProbability := 0, quarantineThreshold := 1,
    quarantineReductionFactor := 3 / 10 }

/-- A parameter set violating every range documented by the specification:
probabilities outside `[0,1]` and non-positive times. -/
def paramsBad : Params :=
  { infectionRate := 2, incubationTime := 0, recoveryTime := -1,
    reinfectionProbability := 3 / 2, quarantineThreshold := -1,
    quarantineReductionFactor := 2 }

/-- Low threshold so that one infected individual out of two activates
quarantine. -/
def paramsQuar : Params :=
  { infectionRate := 1, incubationTime := 5, recoveryTime := 14,
    reinfectionProbability := 1 / 100, quarantineThreshold := 1 / 2,
    quarantineReductionFactor := 3 / 10 }

/-- `patientC` with both display flags raised: identical to `patientC` in
every field the engine reads. -/
def patientCflag : Person :=
  { id := 0, x := 0, y := 0, state := .exposed, daysExposed := 0,
    daysInfected := 0, quarantined := false, newlyExposed := true,
    newlyInfected := true }

/-- The individual `patientC` becomes after one `paramsIncub1` round:
freshly infected, `newlyInfected` raised. -/
def personC1 : Person :=
  { id := 0, x := 0, y := 0, state := .infected, daysExposed := 0,
    daysInfected := 0, quarantined := false, newlyExposed := false,
    newlyInfected := true }

/-- The individual `patientB` becomes after one `paramsSpread` round next to
`patientA`: freshly exposed and already advanced to `daysExposed = 1`, with
`newlyExposed` cleared again within the same round. -/
def personB1 : Person :=
  { id := 1, x := 1, y := 0, state := .exposed, daysExposed := 1,
    daysInfected := 0, quarantined := false, newlyExposed := false,
    newlyInfected := false }

/-! ## Basic lemmas: lengths and indexing -/

theorem markQuarantine_length (pop : List Person) (qa : Bool) :
    (markQuarantine pop qa).length = pop.length := by
  simp [markQuarantine]

theorem commitExposures_length (pending : List Nat) (i : Nat) (l : List Person) :
    (commitExposures pending i l).length = l.length := by
  induction l generalizing i with
  | nil => rfl
  | cons p rest ih => simp [commitExposures, ih]

theorem advanceList_length (params : Params) (rng : Nat → ℚ) (k : Nat)
    (l : List Person) : (advanceList params rng k l).length = l.length := by
  induction l generalizing k with
  | nil => rfl
  | cons p rest ih => simp [advanceList, ih]

theorem updatePopulation_length (pop : List Person) (params : Params)
    (rng : Nat → ℚ) : (updatePopulation pop params rng).length = pop.length := by
  simp [updatePopulation, advanceList_length, commitExposures_length,
    markQuarantine_length]

theorem markQuarantine_getElem? (pop : List Person) (qa : Bool) (j : Nat) :
    (markQuarantine pop qa)[j]? = pop[j]?.map (markPerson qa) := by
  simp [markQuarantine]

theorem commitExposures_getElem? (pending : List Nat) (i : Nat) (l : List Person)
    (j : Nat) :
    (commitExposures pending i l)[j]? =
      l[j]?.map (fun p => if pending.contains (i + j) then exposePerson p else p) := by
  induction l generalizing i j with
  | nil => simp [commitExposures]
  | cons p rest ih =>
    cases j with
    | zero => simp [commitExposures]
    | succ j =>
      simp only [commitExposures, List.getElem?_cons_succ, ih (i + 1) j]
      have : i + 1 + j = i + (j + 1) := by omega
      rw [this]

theorem advanceList_getElem? (params : Params) (rng : Nat → ℚ) (k : Nat)
    (l : List Person) (j : Nat) :
    (advanceList params rng k l)[j]? =
      l[j]?.map (advStep params rng (k + rngUses (l.take j))) := by
  induction l generalizing k j with
  | nil => simp [advanceList]
  | cons p rest ih =>
    cases j with
    | zero => simp [advanceList, rngUses]
    | succ j =>
      simp only [advanceList, List.getElem?_cons_succ, List.take_succ_cons,
        ih (k + randUse p) j]
      have : k + randUse p + rngUses (rest.take j)
          = k + rngUses (p :: rest.take j) := by
        simp [rngUses]; omega
      rw [this]

/-! ## C1: state counts sum to population size -/

theorem filter_states_sum (pop : List Person) :
    (pop.filter (fun p => decide (p.state = .healthy))).length
      + (pop.filter (fun p => decide (p.state = .exposed))).length
      + (pop.filter (fun p => decide (p.state = .infected))).length
      + (pop.filter (fun p => decide (p.state = .recovered))).length
      = pop.length := by
  induction pop with
  | nil => rfl
  | cons p rest ih =>
    cases h : p.state <;> simp [List.filter_cons, h] <;> omega

/-- C1: for every population and parameter set, the four state counts of
`computeStatistics` sum to the population size; since `updatePopulation`
preserves the length, the same holds after any call to it (each individual's
state is one of the four constructors of `HState`, so nobody ever leaves the
four-state set). -/
theorem computeStatistics_conservation (pop : List Person) (round : Nat)
    (params : Params) (rng : Nat → ℚ) :
    ((computeStatistics pop round).healthy + (computeStatistics pop round).exposed
        + (computeStatistics pop round).infected
        + (computeStatistics pop round).recovered = pop.length)
    ∧ (updatePopulation pop params rng).length = pop.length := by
  exact ⟨filter_states_sum pop, updatePopulation_length pop params rng⟩

/-! ## Pending exposures: only healthy individuals are collected -/

theorem scanTrials_mem (rate : ℚ) (rng : Nat → ℚ) (p : Person) :
    ∀ (l : List Person) (oi0 : Nat) (acc : Nat × List Nat) (j : Nat),
      j ∈ (scanTrials rate rng p oi0 acc l).2 →
        j ∈ acc.2
          ∨ ∃ t, ∃ ht : t < l.length,
              oi0 + t = j ∧ (l.get ⟨t, ht⟩).state = HState.healthy := by
  intro l
  induction l with
  | nil =>
    intro oi0 acc j hj
    exact Or.inl hj
  | cons other rest ih =>
    intro oi0 acc j hj
    obtain ⟨k, pending⟩ := acc
    by_cases hc : other.state = HState.healthy ∧ withinRange p other
    · rw [scanTrials, if_pos hc] at hj
      rcases ih (oi0 + 1) _ j hj with hin | ⟨t, ht, rfl, hstate⟩
      · dsimp only at hin
        by_cases hr : rng k < rate
        · rw [if_pos hr] at hin
          by_cases hmem : pending.contains oi0
          · rw [if_pos hmem] at hin
            exact Or.inl hin
          · rw [if_neg hmem, List.mem_append] at hin
            rcases hin with hin | hin
            · exact Or.inl hin
            · have hj0 : j = oi0 := by simpa using hin
              exact Or.inr ⟨0, by simp, by omega, hc.1⟩
        · rw [if_neg hr] at hin
          exact Or.inl hin
      · refine Or.inr ⟨t + 1, by simpa using ht, by omega, hstate⟩
    · rw [scanTrials, if_neg hc] at hj
      rcases ih (oi0 + 1) _ j hj with hin | ⟨t, ht, rfl, hstate⟩
      · exact Or.inl hin
      · exact Or.inr ⟨t + 1, by simpa using ht, by omega, hstate⟩

theorem collectExposures_mem (pop : List Person) (rate : ℚ) (rng : Nat → ℚ)
    (j : Nat) (hj : j ∈ (collectExposures pop rate rng).2) :
    ∃ h : j < pop.length, (pop.get ⟨j, h⟩).state = HState.healthy := by
  rw [collectExposures] at hj
  suffices hgen : ∀ (l : List Person) (acc : Nat × List Nat),
      (∀ i ∈ acc.2, ∃ h : i < pop.length, (pop.get ⟨i, h⟩).state = HState.healthy) →
      ∀ i ∈ (l.foldl
        (fun acc p =>
          if p.state = HState.infected then scanTrials rate rng p 0 acc pop
          else acc) acc).2,
        ∃ h : i < pop.length, (pop.get ⟨i, h⟩).state = HState.healthy by
    exact hgen pop (0, []) (by simp) j hj
  intro l
  induction l with
  | nil => intro acc hacc i hi; exact hacc i hi
  | cons p rest ih =>
    intro acc hacc i hi
    refine ih _ ?_ i hi
    intro i' hi'
    dsimp only at hi'
    by_cases hp : p.state = HState.infected
    · rw [if_pos hp] at hi'
      rcases scanTrials_mem rate rng p pop 0 acc i' hi' with hin | ⟨t, ht, hti, hstate⟩
      · exact hacc i' hin
      · exact ⟨by omega, by
          have : i' = t := by omega
          subst this; exact hstate⟩
    · rw [if_neg hp] at hi'
      exact hacc i' hi'

/-! ## Per-person invariant lemmas for the advance pass -/

theorem advExposed_counters (params : Params) (p : Person)
    (hs : p.state = HState.exposed) (hdi : p.daysInfected = 0) :
    ((advExposed params p).daysExposed = 0 ↔ (advExposed params p).state ≠ HState.exposed)
      ∧ ((advExposed params p).state ≠ HState.infected →
          (advExposed params p).daysInfected = 0) := by
  unfold advExposed
  by_cases hn : p.newlyExposed <;> simp [hn] <;> split <;> simp_all

theorem advInfected_counters (params : Params) (p : Person)
    (hs : p.state = HState.infected) (hde : p.daysExposed = 0) :
    ((advInfected params p).daysExposed = 0 ↔ (advInfected params p).state ≠ HState.exposed)
      ∧ ((advInfected params p).state ≠ HState.infected →
          (advInfected params p).daysInfected = 0) := by
  unfold advInfected
  by_cases hn : p.newlyInfected <;> simp [hn] <;> split <;> simp_all

/-! ## Positional decomposition of one round -/

theorem markPerson_state (qa : Bool) (p : Person) :
    (markPerson qa p).state = p.state := by
  rw [markPerson]; split <;> rfl

theorem markPerson_daysExposed (qa : Bool) (p : Person) :
    (markPerson qa p).daysExposed = p.daysExposed := by
  rw [markPerson]; split <;> rfl

theorem markPerson_daysInfected (qa : Bool) (p : Person) :
    (markPerson qa p).daysInfected = p.daysInfected := by
  rw [markPerson]; split <;> rfl

theorem markPerson_of_not_infected (qa : Bool) (p : Person)
    (h : p.state ≠ HState.infected) : markPerson qa p = p := by
  rw [markPerson, if_neg h]

/-- The `exposed` branch when the incubation threshold is not yet reached:
the individual stays `exposed`, `daysExposed` is incremented, and
`newlyExposed` is cleared. -/
theorem advExposed_stay (params : Params) (p : Person)
    (hnot : ¬ params.incubationTime ≤ (p.daysExposed : ℚ) + 1) :
    (advExposed params p).state = p.state
      ∧ (advExposed params p).daysExposed = p.daysExposed + 1
      ∧ (advExposed params p).newlyExposed = false
      ∧ (advExposed params p).daysInfected = p.daysInfected
      ∧ (advExposed params p).newlyInfected = p.newlyInfected := by
  unfold advExposed
  by_cases hn : p.newlyExposed <;> simp [hn, hnot]

theorem advStep_healthy (params : Params) (rng : Nat → ℚ) (k : Nat) (p : Person)
    (h : p.state = HState.healthy) : advStep params rng k p = p := by
  simp [advStep, h]

theorem advStep_exposed (params : Params) (rng : Nat → ℚ) (k : Nat) (p : Person)
    (h : p.state = HState.exposed) : advStep params rng k p = advExposed params p := by
  simp [advStep, h]

theorem advStep_infected (params : Params) (rng : Nat → ℚ) (k : Nat) (p : Person)
    (h : p.state = HState.infected) : advStep params rng k p = advInfected params p := by
  simp [advStep, h]

theorem advStep_recovered (params : Params) (rng : Nat → ℚ) (k : Nat) (p : Person)
    (h : p.state = HState.recovered) :
    advStep params rng k p =
      if rng k < params.reinfectionProbability then { p with state := HState.healthy }
      else p := by
  simp [advStep, h]

/-- What one round does to the individual at index `j`: some random index
`k` exists such that position `j` of the output is the advance step applied
to the (possibly quarantine-marked, possibly freshly exposed) input at `j`. -/
theorem updatePopulation_index (pop : List Person) (params : Params)
    (rng : Nat → ℚ) (j : Nat) :
    ∃ k, (updatePopulation pop params rng)[j]?
      = pop[j]?.map (fun p =>
          advStep params rng k
            (if (collectExposures pop (effectiveInfectionRate pop params) rng).2.contains j
              then exposePerson (markPerson (quarantineActive pop params) p)
              else markPerson (quarantineActive pop params) p)) := by
  refine ⟨(collectExposures pop (effectiveInfectionRate pop params) rng).1
    + rngUses ((commitExposures
        (collectExposures pop (effectiveInfectionRate pop params) rng).2 0
        (markQuarantine pop (quarantineActive pop params))).take j), ?_⟩
  simp only [updatePopulation]
  rw [advanceList_getElem?, commitExposures_getElem?, markQuarantine_getElem?]
  simp only [Option.map_map, Nat.zero_add, Function.comp_def]

/-! ## C9: frame — length, order, and id/x/y are never changed -/

theorem frameOf_markPerson (qa : Bool) (p : Person) :
    frameOf (markPerson qa p) = frameOf p := by
  simp only [markPerson]; split <;> rfl

theorem frameOf_exposePerson (p : Person) :
    frameOf (exposePerson p) = frameOf p := rfl

theorem frameOf_advExposed (params : Params) (p : Person) :
    frameOf (advExposed params p) = frameOf p := by
  simp only [advExposed]; split_ifs <;> rfl

theorem frameOf_advInfected (params : Params) (p : Person) :
    frameOf (advInfected params p) = frameOf p := by
  simp only [advInfected]; split_ifs <;> rfl

theorem frameOf_advStep (params : Params) (rng : Nat → ℚ) (k : Nat) (p : Person) :
    frameOf (advStep params rng k p) = frameOf p := by
  cases h : p.state with
  | exposed => simp [advStep, h, frameOf_advExposed]
  | infected => simp [advStep, h, frameOf_advInfected]
  | recovered => simp only [advStep, h]; split <;> rfl
  | healthy => simp [advStep, h]

/-- C9: `updatePopulation` preserves the length and order of the population
and never changes any individual's `id`, `x` or `y`; `Person` has no other
fields beyond `state`, `daysExposed`, `daysInfected`, `quarantined`,
`newlyExposed`, `newlyInfected`, so only those may change. -/
theorem updatePopulation_frame (pop : List Person) (params : Params)
    (rng : Nat → ℚ) :
    (updatePopulation pop params rng).map frameOf = pop.map frameOf := by
  have hmark : ∀ qa, (markQuarantine pop qa).map frameOf = pop.map frameOf := by
    intro qa
    simp [markQuarantine, List.map_map, Function.comp_def, frameOf_markPerson]
  have hcommit : ∀ pending i (l : List Person),
      (commitExposures pending i l).map frameOf = l.map frameOf := by
    intro pending i l
    induction l generalizing i with
    | nil => rfl
    | cons p rest ih =>
      simp only [commitExposures, List.map_cons, ih]
      congr 1
      split <;> rfl
  have hadv : ∀ k (l : List Person),
      (advanceList params rng k l).map frameOf = l.map frameOf := by
    intro k l
    induction l generalizing k with
    | nil => rfl
    | cons p rest ih =>
      simp only [advanceList, List.map_cons, ih, frameOf_advStep]
  simp only [updatePopulation]
  rw [hadv, hcommit, hmark]

/-! ## C8: empty population -/

/-- C8: `updatePopulation` on the empty population returns the empty
population for every parameter set; the infected-fraction computation is
total at size `0` (in `ℚ` the expression `0 / 0` is `0`; in the JS source it
is `NaN`, and the comparison `NaN >= threshold` is false, which
`quarantineActive [] params = false` captures).  In neither semantics does a
division-by-zero failure occur. -/
theorem updatePopulation_empty (params : Params) (rng : Nat → ℚ) :
    updatePopulation [] params rng = []
      ∧ quarantineActive [] params = false
      ∧ fractionInfected [] = 0 := by
  refine ⟨rfl, rfl, ?_⟩
  simp [fractionInfected, infectedCount]

/-! ## C2: quarantine determination -/

/-- C2: on a non-empty population, quarantine is active for a round of
`updatePopulation` iff `infectedCount / size ≥ quarantineThreshold` on the
population as passed in; when active the exposure pass sets
`quarantined := true` on every infected individual and every transmission
trial uses success probability `infectionRate * quarantineReductionFactor`;
when inactive it sets `quarantined := false` and trials use `infectionRate`
(the final conjunct exhibits that the trials of the round run at
`effectiveInfectionRate`). -/
theorem quarantine_determination (pop : List Person) (params : Params)
    (rng : Nat → ℚ) (hne : pop ≠ []) :
    (quarantineActive pop params = true ↔
        params.quarantineThreshold ≤ (infectedCount pop : ℚ) / (pop.length : ℚ))
    ∧ (quarantineActive pop params = true →
        effectiveInfectionRate pop params
          = params.infectionRate * params.quarantineReductionFactor)
    ∧ (quarantineActive pop params = false →
        effectiveInfectionRate pop params = params.infectionRate)
    ∧ (∀ q ∈ markQuarantine pop (quarantineActive pop params),
        q.state = HState.infected → q.quarantined = quarantineActive pop params)
    ∧ updatePopulation pop params rng =
        advanceList params rng
          (collectExposures pop (effectiveInfectionRate pop params) rng).1
          (commitExposures
            (collectExposures pop (effectiveInfectionRate pop params) rng).2 0
            (markQuarantine pop (quarantineActive pop params))) := by
  have hlen : pop.length ≠ 0 := by
    simpa [List.length_eq_zero] using hne
  refine ⟨?_, ?_, ?_, ?_, rfl⟩
  · rw [quarantineActive, if_neg hlen, fractionInfected]
    exact decide_eq_true_iff
  · intro h
    rw [effectiveInfectionRate, if_pos h]
  · intro h
    rw [effectiveInfectionRate, if_neg (by simp [h])]
  · intro q hq hstate
    rw [markQuarantine, List.mem_map] at hq
    obtain ⟨p, _, rfl⟩ := hq
    rw [markPerson] at hstate ⊢
    by_cases hp : p.state = HState.infected
    · rw [if_pos hp]
    · rw [if_neg hp] at hstate
      exact absurd hstate hp

/-- Witness for C2 at a concrete input: two individuals, one infected, with
`quarantineThreshold = 1/2`, so the infected fraction `1/2` activates
quarantine. -/
theorem quarantine_determination_witness :
    (quarantineActive [patientA, patientB] paramsQuar = true ↔
        paramsQuar.quarantineThreshold ≤
          (infectedCount [patientA, patientB] : ℚ)
            / (([patientA, patientB] : List Person).length : ℚ))
    ∧ (quarantineActive [patientA, patientB] paramsQuar = true →
        effectiveInfectionRate [patientA, patientB] paramsQuar
          = paramsQuar.infectionRate * paramsQuar.quarantineReductionFactor)
    ∧ (quarantineActive [patientA, patientB] paramsQuar = false →
        effectiveInfectionRate [patientA, patientB] paramsQuar
          = paramsQuar.infectionRate)
    ∧ (∀ q ∈ markQuarantine [patientA, patientB]
          (quarantineActive [patientA, patientB] paramsQuar),
        q.state = HState.infected →
          q.quarantined = quarantineActive [patientA, patientB] paramsQuar)
    ∧ updatePopulation [patientA, patientB] paramsQuar rngZero =
        advanceList paramsQuar rngZero
          (collectExposures [patientA, patientB]
            (effectiveInfectionRate [patientA, patientB] paramsQuar) rngZero).1
          (commitExposures
            (collectExposures [patientA, patientB]
              (effectiveInfectionRate [patientA, patientB] paramsQuar) rngZero).2 0
            (markQuarantine [patientA, patientB]
              (quarantineActive [patientA, patientB] paramsQuar))) :=
  quarantine_determination [patientA, patientB] paramsQuar rngZero (by decide)

/-! ## C5: error handling (the source performs no validation) -/

theorem setInfected_length (l : List Person) (i : Nat) :
    (setInfected l i).length = l.length := by
  induction l generalizing i with
  | nil => rfl
  | cons p rest ih =>
    cases i with
    | zero => simp [setInfected]
    | succ n => simp [setInfected, ih]

/-- Counterexample to C5: `2` is not a perfect square, yet
`createPopulation(2)` does not raise `InvalidSizeError` (it returns a
2-element population), and `updatePopulation` run with every parameter out
of range does not raise `InvalidParameterError`. -/
theorem no_validation_counterexample :
    intSqrt 2 * intSqrt 2 ≠ 2
    ∧ createPopulationE 2 rngZero ≠ Except.error SimError.invalidSize
    ∧ (createPopulation 2 rngZero).length = 2
    ∧ ¬ paramsBad.infectionRate ≤ 1
    ∧ updatePopulationE [patientA] paramsBad rngZero
        ≠ Except.error SimError.invalidParameter := by
  refine ⟨by decide, ?_, by decide, by decide, ?_⟩
  · have hok : createPopulationE 2 rngZero
        = Except.ok (createPopulation 2 rngZero) := rfl
    rw [hok]
    simp
  · simp [updatePopulationE]

/-- C5 as amended: neither function performs the validation the
specification describes, and neither spec-described error is ever raised.
`createPopulation` accepts non-perfect-square sizes: for every `size ≥ 1`,
with the `Math.random()` draw in `[0,1)` as its contract guarantees, it
returns normally with a population of exactly `size` individuals; its only
failure path is the incidental `TypeError` at `size = 0`, where the
patient-zero lookup is `undefined`.  `updatePopulation` performs no
parameter validation and never raises, running as-is with any parameter
set (out-of-range values are neither rejected nor clamped). -/
theorem no_validation (size : Nat) (rng : Nat → ℚ) (pop : List Person)
    (params : Params) (rng' : Nat → ℚ)
    (hsize : 1 ≤ size) (hr0 : 0 ≤ rng 0) (hr1 : rng 0 < 1) :
    createPopulationE size rng = Except.ok (createPopulation size rng)
    ∧ (createPopulation size rng).length = size
    ∧ createPopulationE 0 rng = Except.error SimError.typeError
    ∧ updatePopulationE pop params rng'
        = Except.ok (updatePopulation pop params rng') := by
  have h0 : (0 : ℤ) ≤ (rng 0 * (size : ℚ)).floor := by
    rw [Rat.le_floor]
    push_cast
    exact mul_nonneg hr0 (Nat.cast_nonneg size)
  have hlt : (rng 0 * (size : ℚ)).floor < (size : ℤ) := by
    by_contra hcon
    push_neg at hcon
    have hle : (((size : ℤ) : ℚ)) ≤ rng 0 * (size : ℚ) := Rat.le_floor.mp hcon
    have hpos : (0 : ℚ) < (size : ℚ) := by exact_mod_cast hsize
    have hlt2 : rng 0 * (size : ℚ) < (size : ℚ) := by
      calc rng 0 * (size : ℚ) < 1 * (size : ℚ) := mul_lt_mul_of_pos_right hr1 hpos
        _ = (size : ℚ) := one_mul _
    have hcast : (((size : ℤ) : ℚ)) = ((size : ℚ)) := by push_cast; ring
    rw [hcast] at hle
    linarith
  refine ⟨?_, ?_, ?_, rfl⟩
  · simp only [createPopulationE]
    rw [if_pos ⟨h0, by rw [List.length_map, List.length_range]; omega⟩]
    rfl
  · simp [createPopulation, setInfected_length]
  · simp only [createPopulationE]
    rw [if_neg]
    rintro ⟨-, hbad⟩
    simp at hbad

/-- Witness for C5 as amended at concrete inputs: size 2 (not a perfect
square) succeeds with a 2-element population, size 0 produces the
`TypeError`, and a fully out-of-range parameter set updates normally. -/
theorem no_validation_witness :
    createPopulationE 2 rngZero = Except.ok (createPopulation 2 rngZero)
    ∧ (createPopulation 2 rngZero).length = 2
    ∧ createPopulationE 0 rngZero = Except.error SimError.typeError
    ∧ updatePopulationE [patientA] paramsBad rngZero
        = Except.ok (updatePopulation [patientA] paramsBad rngZero) :=
  no_validation 2 rngZero [patientA] paramsBad rngZero (by decide) (by decide)
    (by decide)

/-! ## C4: counters versus states -/

theorem setInfected_mem (l : List Person) (i : Nat) (q : Person)
    (hq : q ∈ setInfected l i) :
    q ∈ l ∨ ∃ p ∈ l, q = { p with state := HState.infected, daysInfected := 0 } := by
  induction l generalizing i with
  | nil => simp [setInfected] at hq
  | cons p rest ih =>
    cases i with
    | zero =>
      rw [setInfected] at hq
      rcases List.mem_cons.1 hq with rfl | hmem
      · exact Or.inr ⟨p, List.mem_cons_self p rest, rfl⟩
      · exact Or.inl (List.mem_cons_of_mem p hmem)
    | succ n =>
      rw [setInfected] at hq
      rcases List.mem_cons.1 hq with rfl | hmem
      · exact Or.inl (List.mem_cons_self q rest)
      · rcases ih n hmem with hmem' | ⟨p', hp', rfl⟩
        · exact Or.inl (List.mem_cons_of_mem p hmem')
        · exact Or.inr ⟨p', List.mem_cons_of_mem p hp', rfl⟩

theorem createPopulation_mem (size : Nat) (rng : Nat → ℚ) (q : Person)
    (hq : q ∈ createPopulation size rng) :
    q.daysExposed = 0 ∧ q.daysInfected = 0 ∧ q.state ≠ HState.exposed := by
  rw [createPopulation] at hq
  have hbase : ∀ p ∈ (List.range size).map (mkPerson size),
      p.daysExposed = 0 ∧ p.daysInfected = 0 ∧ p.state = HState.healthy := by
    intro p hp
    rw [List.mem_map] at hp
    obtain ⟨i, _, rfl⟩ := hp
    exact ⟨rfl, rfl, rfl⟩
  rcases setInfected_mem _ _ q hq with hmem | ⟨p, hp, rfl⟩
  · obtain ⟨h1, h2, h3⟩ := hbase q hmem
    exact ⟨h1, h2, by simp [h3]⟩
  · obtain ⟨h1, h2, h3⟩ := hbase p hp
    exact ⟨h1, rfl, by simp⟩

/-- Counterexample to C4: immediately after `createPopulation` (an
observable point), patient zero has `state = "infected"` while
`daysInfected = 0`, so "`daysInfected` is zero exactly when the state is not
`infected`" fails in the zero-implies-not-infected direction. -/
theorem patient_zero_counters_counterexample :
    (createPopulation 4 rngZero)[0]?.map (fun p => (p.state, p.daysInfected))
      = some (HState.infected, 0) := by decide

/-- C4 as amended: at every observable point, `daysExposed` is zero exactly
when the state is not `exposed`, and `daysInfected` is zero whenever the
state is not `infected` — but an infected individual may also have
`daysInfected = 0` (patient zero right after creation, and individuals
whose `exposed → infected` transition happened in the round just returned),
so the converse direction for `daysInfected` does not hold. -/
theorem counter_invariant :
    (∀ (size : Nat) (rng : Nat → ℚ), CounterInv (createPopulation size rng))
    ∧ ∀ (pop : List Person) (params : Params) (rng : Nat → ℚ),
        CounterInv pop → CounterInv (updatePopulation pop params rng) := by
  constructor
  · intro size rng p hp
    obtain ⟨h1, h2, h3⟩ := createPopulation_mem size rng p hp
    exact ⟨⟨fun _ => h3, fun _ => h1⟩, fun _ => h2⟩
  · intro pop params rng h q hq
    rw [List.mem_iff_getElem?] at hq
    obtain ⟨j, hj⟩ := hq
    obtain ⟨k, hidx⟩ := updatePopulation_index pop params rng j
    rw [hidx] at hj
    cases hpj : pop[j]? with
    | none => rw [hpj] at hj; simp at hj
    | some p =>
      rw [hpj] at hj
      simp only [Option.map_some', Option.some.injEq] at hj
      have hp : p ∈ pop := by
        rw [List.mem_iff_getElem?]; exact ⟨j, hpj⟩
      have hinv := h p hp
      set qa := quarantineActive pop params with hqa
      by_cases hpend :
          (collectExposures pop (effectiveInfectionRate pop params) rng).2.contains j
      · rw [if_pos hpend] at hj
        have hmem : j ∈ (collectExposures pop (effectiveInfectionRate pop params) rng).2 := by
          simpa using hpend
        obtain ⟨hlt, hst⟩ := collectExposures_mem pop _ rng j hmem
        have hpeq : pop.get ⟨j, hlt⟩ = p := by
          have := List.getElem?_eq_getElem hlt
          rw [hpj] at this
          simpa using this.symm
        have hhealthy : p.state = HState.healthy := by rw [← hpeq]; exact hst
        rw [markPerson_of_not_infected qa p (by simp [hhealthy])] at hj
        have hexp : (exposePerson p).state = HState.exposed := rfl
        have hjj : q = advExposed params (exposePerson p) := by
          rw [← hj, advStep_exposed params rng k _ hexp]
        rw [hjj]
        exact advExposed_counters params (exposePerson p) hexp
          (hinv.2 (by simp [hhealthy]))
      · rw [if_neg hpend] at hj
        cases hstate : p.state with
        | healthy =>
          rw [markPerson_of_not_infected qa p (by simp [hstate])] at hj
          have hjj : q = p := by rw [← hj, advStep_healthy params rng k p hstate]
          rw [hjj]
          exact hinv
        | exposed =>
          rw [markPerson_of_not_infected qa p (by simp [hstate])] at hj
          have hjj : q = advExposed params p := by
            rw [← hj, advStep_exposed params rng k p hstate]
          rw [hjj]
          exact advExposed_counters params p hstate (hinv.2 (by simp [hstate]))
        | infected =>
          have hms : (markPerson qa p).state = HState.infected := by
            rw [markPerson_state, hstate]
          have hjj : q = advInfected params (markPerson qa p) := by
            rw [← hj, advStep_infected params rng k _ hms]
          rw [hjj]
          exact advInfected_counters params (markPerson qa p) hms
            (by rw [markPerson_daysExposed]; exact hinv.1.mpr (by simp [hstate]))
        | recovered =>
          rw [markPerson_of_not_infected qa p (by simp [hstate])] at hj
          have hde : p.daysExposed = 0 := hinv.1.mpr (by simp [hstate])
          have hdi : p.daysInfected = 0 := hinv.2 (by simp [hstate])
          rw [← hj, advStep_recovered params rng k p hstate]
          split <;> exact ⟨⟨fun _ => by simp [hstate], fun _ => hde⟩, fun _ => hdi⟩

/-- Witness for C4 as amended: the invariant holds for a concrete
population and is preserved by a concrete `updatePopulation` call. -/
theorem counter_invariant_witness :
    CounterInv (updatePopulation [patientA, patientB] paramsSpread rngZero) :=
  counter_invariant.2 [patientA, patientB] paramsSpread rngZero
    (by unfold CounterInv; decide)

/-! ## C7: one-round incubation -/

/-- C7: with `incubationTime = 1`, an individual in state `exposed` with
`daysExposed = 0` (all other individuals non-exposed) has, after exactly one
`updatePopulation` round, `state = "infected"`, `daysInfected = 0` and
`newlyInfected = true`. -/
theorem incubation_one_transition (pop : List Person) (params : Params)
    (rng : Nat → ℚ) (j : Nat) (p : Person)
    (hpj : pop[j]? = some p)
    (hincub : params.incubationTime = 1)
    (hexp : p.state = HState.exposed) (hde : p.daysExposed = 0)
    (hothers : ∀ i, i ≠ j → ∀ q, pop[i]? = some q → q.state ≠ HState.exposed) :
    (updatePopulation pop params rng)[j]?.map
        (fun q => (q.state, q.daysInfected, q.newlyInfected))
      = some (HState.infected, 0, true) := by
  obtain ⟨k, hidx⟩ := updatePopulation_index pop params rng j
  rw [hidx, hpj]
  by_cases hpend :
      (collectExposures pop (effectiveInfectionRate pop params) rng).2.contains j
  · exfalso
    have hmem : j ∈ (collectExposures pop (effectiveInfectionRate pop params) rng).2 := by
      simpa using hpend
    obtain ⟨hlt, hst⟩ := collectExposures_mem pop _ rng j hmem
    have hpeq : pop.get ⟨j, hlt⟩ = p := by
      have := List.getElem?_eq_getElem hlt
      rw [hpj] at this
      simpa using this.symm
    rw [hpeq, hexp] at hst
    exact absurd hst (by simp)
  · simp only [Option.map_some', if_neg hpend]
    rw [markPerson_of_not_infected _ p (by simp [hexp]),
      advStep_exposed params rng k p hexp]
    have hadv : (advExposed params p).state = HState.infected
        ∧ (advExposed params p).daysInfected = 0
        ∧ (advExposed params p).newlyInfected = true := by
      unfold advExposed
      by_cases hn : p.newlyExposed <;> simp [hn, hde, hincub]
    rw [hadv.1, hadv.2.1, hadv.2.2]

/-- Witness for C7: a 2-individual population, `patientC` exposed with
`daysExposed = 0` at index 0, the other healthy, `incubationTime = 1`. -/
theorem incubation_one_transition_witness :
    (updatePopulation [patientC, patientB] paramsIncub1 rngZero)[0]?.map
        (fun q => (q.state, q.daysInfected, q.newlyInfected))
      = some (HState.infected, 0, true) :=
  incubation_one_transition [patientC, patientB] paramsIncub1 rngZero 0 patientC
    (by decide) (by decide) (by decide) (by decide)
    (by
      intro i hi q hq
      match i with
      | 0 => exact absurd rfl hi
      | 1 =>
        have hq' : q = patientB := by simpa using hq.symm
        subst hq'
        decide
      | Nat.succ (Nat.succ n) => simp at hq)

/-! ## C6: fresh exposures are advanced in the same round -/

/-- C6: the exposure commit precedes the advance pass inside one
`updatePopulation` call, so an individual whose index is in the pending
exposure set of the round is processed as `exposed` by the same round's
advance pass: with `incubationTime ≥ 2` it ends the round in state
`exposed` with `daysExposed = 1` (not 0). -/
theorem fresh_exposure_same_round (pop : List Person) (params : Params)
    (rng : Nat → ℚ) (j : Nat)
    (hpend : j ∈ (collectExposures pop (effectiveInfectionRate pop params) rng).2)
    (hincub : 2 ≤ params.incubationTime) :
    (updatePopulation pop params rng)[j]?.map (fun q => (q.state, q.daysExposed))
      = some (HState.exposed, 1) := by
  obtain ⟨hlt, hst⟩ := collectExposures_mem pop _ rng j hpend
  have hstj : pop[j].state = HState.healthy := by simpa using hst
  have hpj : pop[j]? = some pop[j] := List.getElem?_eq_getElem hlt
  obtain ⟨k, hidx⟩ := updatePopulation_index pop params rng j
  rw [hidx, hpj]
  have hcont :
      (collectExposures pop (effectiveInfectionRate pop params) rng).2.contains j = true := by
    simpa using hpend
  simp only [Option.map_some', if_pos hcont]
  rw [markPerson_of_not_infected _ _ (by simp [hstj])]
  rw [advStep_exposed params rng k _ rfl]
  have hde : (exposePerson pop[j]).daysExposed = 0 := rfl
  have hstay := advExposed_stay params (exposePerson pop[j])
    (by
      rw [hde]
      intro hle
      have h2 : (2 : ℚ) ≤ (0 : Nat) + 1 := le_trans hincub hle
      norm_num at h2)
  rw [hstay.1, hstay.2.1, hde]
  rfl

/-- Witness for C6: `patientA` infected at the origin, `patientB` healthy
one unit away, certain transmission — index 1 is collected as a pending
exposure, and after the round that individual is `exposed` with
`daysExposed = 1`. -/
theorem fresh_exposure_same_round_witness :
    (updatePopulation [patientA, patientB] paramsSpread rngZero)[1]?.map
        (fun q => (q.state, q.daysExposed))
      = some (HState.exposed, 1) :=
  fresh_exposure_same_round [patientA, patientB] paramsSpread rngZero 1
    (by decide) (by decide)

/-! ## C10: no spontaneous cases -/

theorem collectExposures_no_infected (pop : List Person) (rate : ℚ)
    (rng : Nat → ℚ) (h : ∀ p ∈ pop, p.state ≠ HState.infected) :
    collectExposures pop rate rng = (0, []) := by
  rw [collectExposures]
  suffices hgen : ∀ (l : List Person), (∀ p ∈ l, p.state ≠ HState.infected) →
      ∀ acc : Nat × List Nat,
        l.foldl (fun acc p =>
          if p.state = HState.infected then scanTrials rate rng p 0 acc pop
          else acc) acc = acc by
    exact hgen pop h (0, [])
  intro l hl
  induction l with
  | nil => intro acc; rfl
  | cons p rest ih =>
    intro acc
    rw [List.foldl_cons]
    have hp : p.state ≠ HState.infected := hl p (List.mem_cons_self p rest)
    rw [if_neg hp]
    exact ih (fun q hq => hl q (List.mem_cons_of_mem p hq)) acc

theorem commitExposures_nil_pending (i : Nat) (l : List Person) :
    commitExposures [] i l = l := by
  induction l generalizing i with
  | nil => rfl
  | cons p rest ih => simp [commitExposures, ih]

/-- C10: on a population with zero infected and zero exposed individuals and
`reinfectionProbability = 0`, `updatePopulation` is the identity (the random
draws of `Math.random()` are non-negative, so a reinfection trial with
probability 0 never succeeds); in particular the per-state distribution is
unchanged, and since the hypotheses still hold of the output, this persists
round over round. -/
theorem no_spontaneous_cases (pop : List Person) (params : Params)
    (rng : Nat → ℚ)
    (hstates : ∀ p ∈ pop, p.state ≠ HState.infected ∧ p.state ≠ HState.exposed)
    (hreinf : params.reinfectionProbability = 0)
    (hrng : ∀ k, 0 ≤ rng k) :
    updatePopulation pop params rng = pop
      ∧ ∀ round, computeStatistics (updatePopulation pop params rng) round
          = computeStatistics pop round := by
  have hid : updatePopulation pop params rng = pop := by
    rw [updatePopulation,
      collectExposures_no_infected pop _ rng (fun p hp => (hstates p hp).1)]
    rw [show (((0 : Nat), ([] : List Nat)).2) = ([] : List Nat) from rfl]
    rw [commitExposures_nil_pending]
    have hmark : markQuarantine pop (quarantineActive pop params) = pop := by
      rw [markQuarantine]
      conv_rhs => rw [← List.map_id pop]
      apply List.map_congr_left
      intro p hp
      exact markPerson_of_not_infected _ p (hstates p hp).1
    rw [hmark]
    suffices hadv : ∀ (l : List Person),
        (∀ p ∈ l, p.state ≠ HState.infected ∧ p.state ≠ HState.exposed) →
        ∀ k, advanceList params rng k l = l by
      exact hadv pop hstates _
    intro l hl
    induction l with
    | nil => intro k; rfl
    | cons p rest ih =>
      intro k
      rw [advanceList]
      have hp := hl p (List.mem_cons_self p rest)
      have hstep : advStep params rng k p = p := by
        cases hstate : p.state with
        | healthy => exact advStep_healthy params rng k p hstate
        | exposed => exact absurd hstate hp.2
        | infected => exact absurd hstate hp.1
        | recovered =>
          rw [advStep_recovered params rng k p hstate, hreinf, if_neg]
          exact not_lt.2 (hrng k)
      rw [hstep, ih (fun q hq => hl q (List.mem_cons_of_mem p hq))]
  exact ⟨hid, fun round => by rw [hid]⟩

/-- Witness for C10: a single healthy individual, `reinfectionProbability`
zero — the round is the identity. -/
theorem no_spontaneous_cases_witness :
    updatePopulation [patientB] paramsSpread rngZero = [patientB]
      ∧ ∀ round, computeStatistics (updatePopulation [patientB] paramsSpread rngZero) round
          = computeStatistics [patientB] round :=
  no_spontaneous_cases [patientB] paramsSpread rngZero (by decide) (by decide)
    (fun _ => le_refl 0)

/-! ## C3: the transient display flags -/

theorem advExposed_newlyExposed (params : Params) (p : Person) :
    (advExposed params p).newlyExposed = false := by
  unfold advExposed
  by_cases hn : p.newlyExposed <;> simp [hn] <;> split <;> rfl

theorem advInfected_newlyInfected (params : Params) (p : Person) :
    (advInfected params p).newlyInfected = false := by
  unfold advInfected
  by_cases hn : p.newlyInfected <;> simp [hn] <;> split <;> rfl

theorem advInfected_state_ne_exposed (params : Params) (p : Person)
    (hs : p.state = HState.infected) :
    (advInfected params p).state ≠ HState.exposed := by
  unfold advInfected
  by_cases hn : p.newlyInfected <;> simp [hn] <;> split <;> simp [hs]

theorem advExposed_fresh_newlyInfected (params : Params) (p : Person)
    (hs : p.state = HState.exposed) :
    (advExposed params p).state = HState.infected →
      (advExposed params p).newlyInfected = true := by
  unfold advExposed
  by_cases hn : p.newlyExposed <;> simp [hn] <;> split <;> simp [hs]

/-- Counterexample to C3: `patientB` undergoes the `healthy → exposed`
transition during this round (certain transmission from the adjacent
`patientA`), yet when `updatePopulation` returns from that very round its
`newlyExposed` flag is already `false` again — the commit raises the flag
but the same round's advance pass clears it. -/
theorem newly_exposed_cleared_counterexample :
    ([patientA, patientB].map Person.state = [HState.infected, HState.healthy])
    ∧ (updatePopulation [patientA, patientB] paramsSpread rngZero).map
          (fun q => (q.state, q.newlyExposed))
        = [(HState.infected, false), (HState.exposed, false)] := by
  exact ⟨by decide, by decide⟩

/-- Part (a) of the amended C3: whenever `updatePopulation` returns, every
individual in state `exposed` has `newlyExposed = false` — the advance pass
clears the flag in the very round the commit raises it. -/
theorem exposed_flag_cleared (pop : List Person) (params : Params)
    (rng : Nat → ℚ) :
    ∀ q ∈ updatePopulation pop params rng,
      q.state = HState.exposed → q.newlyExposed = false := by
  intro q hq hstate
  rw [List.mem_iff_getElem?] at hq
  obtain ⟨j, hj⟩ := hq
  obtain ⟨k, hidx⟩ := updatePopulation_index pop params rng j
  rw [hidx] at hj
  cases hpj : pop[j]? with
  | none => rw [hpj] at hj; simp at hj
  | some p =>
    rw [hpj] at hj
    simp only [Option.map_some', Option.some.injEq] at hj
    by_cases hpend :
        (collectExposures pop (effectiveInfectionRate pop params) rng).2.contains j
    · rw [if_pos hpend, advStep_exposed params rng k _ rfl] at hj
      rw [← hj]
      exact advExposed_newlyExposed params _
    · rw [if_neg hpend] at hj
      cases hstate' : p.state with
      | healthy =>
        rw [markPerson_of_not_infected _ p (by simp [hstate']),
          advStep_healthy params rng k p hstate'] at hj
        rw [← hj] at hstate
        simp [hstate'] at hstate
      | exposed =>
        rw [markPerson_of_not_infected _ p (by simp [hstate']),
          advStep_exposed params rng k p hstate'] at hj
        rw [← hj]
        exact advExposed_newlyExposed params p
      | infected =>
        have hms : (markPerson (quarantineActive pop params) p).state
            = HState.infected := by rw [markPerson_state, hstate']
        rw [advStep_infected params rng k _ hms] at hj
        rw [← hj] at hstate
        exact absurd hstate (advInfected_state_ne_exposed params _ hms)
      | recovered =>
        rw [markPerson_of_not_infected _ p (by simp [hstate']),
          advStep_recovered params rng k p hstate'] at hj
        by_cases hr : rng k < params.reinfectionProbability
        · rw [if_pos hr] at hj
          rw [← hj] at hstate
          simp at hstate
        · rw [if_neg hr] at hj
          rw [← hj] at hstate
          simp [hstate'] at hstate

/-- Part (b) of the amended C3: positionally, an individual that enters the
round `exposed` (or is freshly exposed from `healthy`) and leaves it
`infected` carries `newlyInfected = true` when the round returns, and an
individual that enters the round `infected` leaves it with
`newlyInfected = false` (the flag is cleared one round after the
transition). -/
theorem newly_infected_marks (pop : List Person) (params : Params)
    (rng : Nat → ℚ) (j : Nat) (p q : Person)
    (hpj : pop[j]? = some p)
    (hqj : (updatePopulation pop params rng)[j]? = some q) :
    (p.state = HState.exposed → q.state = HState.infected → q.newlyInfected = true)
    ∧ (p.state = HState.healthy → q.state = HState.infected → q.newlyInfected = true)
    ∧ (p.state = HState.infected → q.newlyInfected = false) := by
  obtain ⟨k, hidx⟩ := updatePopulation_index pop params rng j
  rw [hidx, hpj] at hqj
  simp only [Option.map_some', Option.some.injEq] at hqj
  by_cases hpend :
      (collectExposures pop (effectiveInfectionRate pop params) rng).2.contains j
  · have hmem : j ∈ (collectExposures pop (effectiveInfectionRate pop params) rng).2 := by
      simpa using hpend
    obtain ⟨hlt, hst⟩ := collectExposures_mem pop _ rng j hmem
    have hph : p.state = HState.healthy := by
      have := List.getElem?_eq_getElem hlt
      rw [hpj] at this
      have hpeq : pop.get ⟨j, hlt⟩ = p := by simpa using this.symm
      rw [← hpeq]
      exact hst
    rw [if_pos hpend, markPerson_of_not_infected _ p (by simp [hph]),
      advStep_exposed params rng k _ rfl] at hqj
    refine ⟨fun hps _ => by simp [hps] at hph, fun _ hqi => ?_, fun hpi => by
      simp [hpi] at hph⟩
    rw [← hqj] at hqi ⊢
    exact advExposed_fresh_newlyInfected params _ rfl hqi
  · rw [if_neg hpend] at hqj
    cases hstate : p.state with
    | exposed =>
      rw [markPerson_of_not_infected _ p (by simp [hstate]),
        advStep_exposed params rng k p hstate] at hqj
      refine ⟨fun _ hqi => ?_, fun hph => absurd hph (by decide),
        fun hpi => absurd hpi (by decide)⟩
      rw [← hqj] at hqi ⊢
      exact advExposed_fresh_newlyInfected params p hstate hqi
    | healthy =>
      rw [markPerson_of_not_infected _ p (by simp [hstate]),
        advStep_healthy params rng k p hstate] at hqj
      refine ⟨fun hps => absurd hps (by decide), fun _ hqi => ?_,
        fun hpi => absurd hpi (by decide)⟩
      rw [← hqj] at hqi
      simp [hstate] at hqi
    | infected =>
      have hms : (markPerson (quarantineActive pop params) p).state
          = HState.infected := by rw [markPerson_state, hstate]
      rw [advStep_infected params rng k _ hms] at hqj
      refine ⟨fun hps => absurd hps (by decide), fun hph => absurd hph (by decide),
        fun _ => ?_⟩
      rw [← hqj]
      exact advInfected_newlyInfected params _
    | recovered =>
      exact ⟨fun hps => absurd hps (by decide), fun hph => absurd hph (by decide),
        fun hpi => absurd hpi (by decide)⟩

/-! ## Observational congruence: the engine never reads `id`, `quarantined`,
`newlyExposed` or `newlyInfected` -/

theorem obs_fields {p₁ p₂ : Person} (h : obsOf p₁ = obsOf p₂) :
    p₁.state = p₂.state ∧ p₁.x = p₂.x ∧ p₁.y = p₂.y
      ∧ p₁.daysExposed = p₂.daysExposed ∧ p₁.daysInfected = p₂.daysInfected := by
  simpa [obsOf, Prod.ext_iff] using h

theorem infectedCount_obs (pop : List Person) :
    infectedCount pop
      = ((pop.map obsOf).filter (fun t => decide (t.1 = HState.infected))).length := by
  simp [infectedCount, List.filter_map, Function.comp_def, obsOf]

theorem quarantine_congr (params : Params) (pop₁ pop₂ : List Person)
    (h : pop₁.map obsOf = pop₂.map obsOf) :
    quarantineActive pop₁ params = quarantineActive pop₂ params
      ∧ effectiveInfectionRate pop₁ params = effectiveInfectionRate pop₂ params := by
  have hlen : pop₁.length = pop₂.length := by
    have := congrArg List.length h
    simpa using this
  have hcount : infectedCount pop₁ = infectedCount pop₂ := by
    rw [infectedCount_obs, infectedCount_obs, h]
  have hfrac : fractionInfected pop₁ = fractionInfected pop₂ := by
    rw [fractionInfected, fractionInfected, hcount, hlen]
  have hqa : quarantineActive pop₁ params = quarantineActive pop₂ params := by
    rw [quarantineActive, quarantineActive, hlen, hfrac]
  exact ⟨hqa, by rw [effectiveInfectionRate, effectiveInfectionRate, hqa]⟩

theorem scanTrials_congr (rate : ℚ) (rng : Nat → ℚ) {p₁ p₂ : Person}
    (hp : obsOf p₁ = obsOf p₂) :
    ∀ (l₁ l₂ : List Person), l₁.map obsOf = l₂.map obsOf →
      ∀ (oi : Nat) (acc : Nat × List Nat),
        scanTrials rate rng p₁ oi acc l₁ = scanTrials rate rng p₂ oi acc l₂ := by
  intro l₁
  induction l₁ with
  | nil =>
    intro l₂ h oi acc
    cases l₂ with
    | nil => rfl
    | cons o₂ rest₂ => simp at h
  | cons o₁ rest₁ ih =>
    intro l₂ h oi acc
    cases l₂ with
    | nil => simp at h
    | cons o₂ rest₂ =>
      simp only [List.map_cons, List.cons.injEq] at h
      obtain ⟨ho, hrest⟩ := h
      obtain ⟨hs, hx, hy, _, _⟩ := obs_fields ho
      obtain ⟨hps, hpx, hpy, _, _⟩ := obs_fields hp
      obtain ⟨k, pending⟩ := acc
      have hcond : (o₁.state = HState.healthy ∧ withinRange p₁ o₁)
          ↔ (o₂.state = HState.healthy ∧ withinRange p₂ o₂) := by
        rw [hs, withinRange, withinRange, hx, hy, hpx, hpy]
      by_cases hc : o₁.state = HState.healthy ∧ withinRange p₁ o₁
      · rw [scanTrials, if_pos hc, scanTrials, if_pos (hcond.mp hc)]
        exact ih rest₂ hrest (oi + 1) _
      · rw [scanTrials, if_neg hc, scanTrials, if_neg (fun hc2 => hc (hcond.mpr hc2))]
        exact ih rest₂ hrest (oi + 1) _

theorem collectExposures_congr (rate : ℚ) (rng : Nat → ℚ)
    (pop₁ pop₂ : List Person) (h : pop₁.map obsOf = pop₂.map obsOf) :
    collectExposures pop₁ rate rng = collectExposures pop₂ rate rng := by
  rw [collectExposures, collectExposures]
  suffices hgen : ∀ (l₁ l₂ : List Person), l₁.map obsOf = l₂.map obsOf →
      ∀ acc : Nat × List Nat,
        l₁.foldl (fun acc p =>
          if p.state = HState.infected then scanTrials rate rng p 0 acc pop₁ else acc) acc
        = l₂.foldl (fun acc p =>
          if p.state = HState.infected then scanTrials rate rng p 0 acc pop₂ else acc) acc by
    exact hgen pop₁ pop₂ h (0, [])
  intro l₁
  induction l₁ with
  | nil =>
    intro l₂ hl acc
    cases l₂ with
    | nil => rfl
    | cons o₂ rest₂ => simp at hl
  | cons o₁ rest₁ ih =>
    intro l₂ hl acc
    cases l₂ with
    | nil => simp at hl
    | cons o₂ rest₂ =>
      simp only [List.map_cons, List.cons.injEq] at hl
      obtain ⟨ho, hrest⟩ := hl
      obtain ⟨hs, _, _, _, _⟩ := obs_fields ho
      rw [List.foldl_cons, List.foldl_cons]
      by_cases hinf : o₁.state = HState.infected
      · rw [if_pos hinf, if_pos (hs ▸ hinf)]
        rw [scanTrials_congr rate rng ho pop₁ pop₂ h 0 acc]
        exact ih rest₂ hrest _
      · rw [if_neg hinf, if_neg (fun h2 => hinf (hs.symm ▸ h2))]
        exact ih rest₂ hrest acc

theorem obs_markPerson (qa : Bool) (p : Person) :
    obsOf (markPerson qa p) = obsOf p := by
  rw [markPerson]; split <;> rfl

theorem markQuarantine_obs (pop : List Person) (qa : Bool) :
    (markQuarantine pop qa).map obsOf = pop.map obsOf := by
  rw [markQuarantine, List.map_map]
  exact List.map_congr_left fun p _ => obs_markPerson qa p

theorem obs_exposePerson_congr {p₁ p₂ : Person} (h : obsOf p₁ = obsOf p₂) :
    obsOf (exposePerson p₁) = obsOf (exposePerson p₂) := by
  obtain ⟨hs, hx, hy, hde, hdi⟩ := obs_fields h
  simp [obsOf, exposePerson, hx, hy, hdi]

theorem commitExposures_obs_congr (pending : List Nat) :
    ∀ (i : Nat) (l₁ l₂ : List Person), l₁.map obsOf = l₂.map obsOf →
      (commitExposures pending i l₁).map obsOf
        = (commitExposures pending i l₂).map obsOf := by
  intro i l₁
  induction l₁ generalizing i with
  | nil =>
    intro l₂ h
    cases l₂ with
    | nil => rfl
    | cons o₂ rest₂ => simp at h
  | cons o₁ rest₁ ih =>
    intro l₂ h
    cases l₂ with
    | nil => simp at h
    | cons o₂ rest₂ =>
      simp only [List.map_cons, List.cons.injEq] at h
      obtain ⟨ho, hrest⟩ := h
      rw [commitExposures, commitExposures, List.map_cons, List.map_cons]
      congr 1
      · by_cases hc : pending.contains i
        · rw [if_pos hc, if_pos hc]
          exact obs_exposePerson_congr ho
        · rw [if_neg hc, if_neg hc]
          exact ho
      · exact ih (i + 1) rest₂ hrest

theorem advExposed_obs_congr (params : Params) {p₁ p₂ : Person}
    (h : obsOf p₁ = obsOf p₂) :
    obsOf (advExposed params p₁) = obsOf (advExposed params p₂) := by
  obtain ⟨hs, hx, hy, hde, hdi⟩ := obs_fields h
  unfold advExposed
  by_cases hn₁ : p₁.newlyExposed <;> by_cases hn₂ : p₂.newlyExposed <;>
    simp [hn₁, hn₂, obsOf, hs, hx, hy, hde, hdi] <;> split <;> simp

theorem advInfected_obs_congr (params : Params) {p₁ p₂ : Person}
    (h : obsOf p₁ = obsOf p₂) :
    obsOf (advInfected params p₁) = obsOf (advInfected params p₂) := by
  obtain ⟨hs, hx, hy, hde, hdi⟩ := obs_fields h
  unfold advInfected
  by_cases hn₁ : p₁.newlyInfected <;> by_cases hn₂ : p₂.newlyInfected <;>
    simp [hn₁, hn₂, obsOf, hs, hx, hy, hde, hdi] <;> split <;> simp

theorem advStep_obs_congr (params : Params) (rng : Nat → ℚ) (k : Nat)
    {p₁ p₂ : Person} (h : obsOf p₁ = obsOf p₂) :
    obsOf (advStep params rng k p₁) = obsOf (advStep params rng k p₂) := by
  obtain ⟨hs, hx, hy, hde, hdi⟩ := obs_fields h
  cases hstate : p₁.state with
  | healthy =>
    rw [advStep_healthy params rng k p₁ hstate,
      advStep_healthy params rng k p₂ (hs.symm.trans hstate)]
    exact h
  | exposed =>
    rw [advStep_exposed params rng k p₁ hstate,
      advStep_exposed params rng k p₂ (hs.symm.trans hstate)]
    exact advExposed_obs_congr params h
  | infected =>
    rw [advStep_infected params rng k p₁ hstate,
      advStep_infected params rng k p₂ (hs.symm.trans hstate)]
    exact advInfected_obs_congr params h
  | recovered =>
    rw [advStep_recovered params rng k p₁ hstate,
      advStep_recovered params rng k p₂ (hs.symm.trans hstate)]
    split
    · simp [obsOf, hx, hy, hde, hdi]
    · exact h

theorem randUse_congr {p₁ p₂ : Person} (hs : p₁.state = p₂.state) :
    randUse p₁ = randUse p₂ := by
  rw [randUse, randUse, hs]

theorem advanceList_obs_congr (params : Params) (rng : Nat → ℚ) :
    ∀ (l₁ l₂ : List Person), l₁.map obsOf = l₂.map obsOf →
      ∀ k, (advanceList params rng k l₁).map obsOf
        = (advanceList params rng k l₂).map obsOf := by
  intro l₁
  induction l₁ with
  | nil =>
    intro l₂ h k
    cases l₂ with
    | nil => rfl
    | cons o₂ rest₂ => simp at h
  | cons o₁ rest₁ ih =>
    intro l₂ h k
    cases l₂ with
    | nil => simp at h
    | cons o₂ rest₂ =>
      simp only [List.map_cons, List.cons.injEq] at h
      obtain ⟨ho, hrest⟩ := h
      rw [advanceList, advanceList, List.map_cons, List.map_cons]
      rw [randUse_congr (obs_fields ho).1]
      exact congrArg₂ List.cons (advStep_obs_congr params rng k ho)
        (ih rest₂ hrest (k + randUse o₂))

/-- Part (c) of the amended C3: the next-round result, observed through the
fields the engine reads (`state`, position, counters), depends only on those
same fields of the input — the display flags `newlyExposed`/`newlyInfected`
(and `quarantined`, `id`) never influence any state-transition decision. -/
theorem updatePopulation_obs_congr (pop₁ pop₂ : List Person) (params : Params)
    (rng : Nat → ℚ) (h : pop₁.map obsOf = pop₂.map obsOf) :
    (updatePopulation pop₁ params rng).map obsOf
      = (updatePopulation pop₂ params rng).map obsOf := by
  obtain ⟨hqa, hrate⟩ := quarantine_congr params pop₁ pop₂ h
  rw [updatePopulation, updatePopulation, hqa, hrate,
    collectExposures_congr (effectiveInfectionRate pop₂ params) rng pop₁ pop₂ h]
  apply advanceList_obs_congr
  apply commitExposures_obs_congr
  rw [markQuarantine_obs, markQuarantine_obs, h]

/-- C3 as amended: `newlyInfected` is true exactly on the individuals whose
transition into `infected` occurred in the round just returned, and is
cleared during the next round; `newlyExposed`, however, is raised by the
exposure commit but cleared again by the advance pass of the *same* round,
so it is already false whenever `updatePopulation` returns; and neither flag
influences any state-transition decision (the round's outcome, observed
through the fields the engine reads, depends only on those fields of the
input). -/
theorem transient_display_flags :
    (∀ (pop : List Person) (params : Params) (rng : Nat → ℚ),
      (∀ q ∈ updatePopulation pop params rng,
        q.state = HState.exposed → q.newlyExposed = false)
      ∧ ∀ (j : Nat) (p q : Person), pop[j]? = some p →
          (updatePopulation pop params rng)[j]? = some q →
          (p.state = HState.exposed → q.state = HState.infected →
            q.newlyInfected = true)
          ∧ (p.state = HState.healthy → q.state = HState.infected →
            q.newlyInfected = true)
          ∧ (p.state = HState.infected → q.newlyInfected = false))
    ∧ ∀ (pop₁ pop₂ : List Person) (params : Params) (rng : Nat → ℚ),
        pop₁.map obsOf = pop₂.map obsOf →
        (updatePopulation pop₁ params rng).map obsOf
          = (updatePopulation pop₂ params rng).map obsOf :=
  ⟨fun pop params rng =>
    ⟨exposed_flag_cleared pop params rng,
     fun j p q hpj hqj => newly_infected_marks pop params rng j p q hpj hqj⟩,
   fun pop₁ pop₂ params rng h => updatePopulation_obs_congr pop₁ pop₂ params rng h⟩

/-- Witness for C3 as amended, at concrete inputs: the individual freshly
exposed this round ends it with `newlyExposed = false`; the individual whose
`exposed → infected` transition happened this round ends it with
`newlyInfected = true`; and raising both display flags on an input
individual does not change the observable outcome of the round. -/
theorem transient_display_flags_witness :
    personB1.newlyExposed = false
    ∧ personC1.newlyInfected = true
    ∧ (updatePopulation [patientC, patientB] paramsIncub1 rngZero).map obsOf
        = (updatePopulation [patientCflag, patientB] paramsIncub1 rngZero).map obsOf :=
  ⟨(transient_display_flags.1 [patientA, patientB] paramsSpread rngZero).1
      personB1 (by decide) (by decide),
   (((transient_display_flags.1 [patientC, patientB] paramsIncub1 rngZero).2
      0 patientC personC1 (by decide) (by decide)).1 (by decide) (by decide)),
   transient_display_flags.2 [patientC, patientB] [patientCflag, patientB]
      paramsIncub1 rngZero (by decide)⟩
